import Mathlib

/-!
Verification development for the zeroconf mDNS/DNS-SD library
(responder in `server.go`, resolver in the client half of the same file,
string helpers in `utils.go`).

Go strings are modelled as Lean `String`s: a Lean `Char` is exactly a Go
rune, and `String.utf8ByteSize` is Go's `len(s)`.  Go byte slicing in the
sources only ever happens at rune boundaries, so rune-level modelling is
exact.  Go slices become Lean lists, Go `uint32`/`uint16` fields hold the
small protocol constants only and are modelled as `Nat` (no arithmetic in
the sources can overflow them), and `time.Time` values are modelled as
`Int` seconds.
-/

namespace Zeroconf

/-! ## String helpers (`utils.go`) -/

/-- `trimDot` from `utils.go`: `strings.Trim(s, ".")`, removing every
leading and trailing `'.'`. -/
def trimDot (s : String) : String :=
  String.mk (((s.data.dropWhile (· == '.')).reverse.dropWhile (· == '.')).reverse)

/-- Go `strings.HasSuffix(s, suf)`.  Go compares byte suffixes; for valid
UTF-8 a byte-level suffix coincides with a rune-level suffix, so we compare
the character lists. -/
def goHasSuffix (s suf : String) : Bool :=
  suf.data.isSuffixOf s.data

/-- Go `strings.Replace(s, pat, "", -1)` (as used at the PTR-fusion site of
the resolver): remove every non-overlapping occurrence of `pat`, scanning
left to right.  An empty pattern is treated as matching nowhere; the
sources never call it with an empty pattern. -/
def goRemoveAllAux (fuel : Nat) (s pat : List Char) : List Char :=
  match fuel, s with
  | 0, s => s
  | _ + 1, [] => []
  | fuel + 1, c :: rest =>
    if pat ≠ [] ∧ pat.isPrefixOf (c :: rest) then
      goRemoveAllAux fuel ((c :: rest).drop pat.length) pat
    else
      c :: goRemoveAllAux fuel rest pat

def goRemoveAll (s pat : List Char) : List Char :=
  goRemoveAllAux s.length s pat

/-- Go `strings.Replace(s, pat, "", 1)` (as used at the SRV/TXT-fusion
sites of the resolver): remove the leftmost occurrence of `pat`, if
any. -/
def goRemoveFirst (s pat : List Char) : List Char :=
  match s with
  | [] => []
  | c :: rest =>
    if pat ≠ [] ∧ pat.isPrefixOf (c :: rest) then (c :: rest).drop pat.length
    else c :: goRemoveFirst rest pat

/-- Go `strings.Split(s, ",")` on the character list (used by
`parseSubtypes` in `utils.go`). -/
def splitComma (s : List Char) : List (List Char) :=
  match s with
  | [] => [[]]
  | c :: rest =>
    if c = ',' then [] :: splitComma rest
    else
      match splitComma rest with
      | [] => [[c]]
      | g :: gs => (c :: g) :: gs

/-- `parseSubtypes` from `utils.go`: split the service string on commas;
the head is the service type, the tail the subtypes. -/
def parseSubtypes (service : String) : String × List String :=
  match (splitComma service.data).map String.mk with
  | [] => ("", [])
  | x :: xs => (x, xs)

/-! ## `chunks` (`utils.go`)

The Go loop `for i := range s` iterates over the starting byte index of
each rune and `currentLen` counts runes; every slice `s[currentStart:i]`
is taken at rune boundaries, so the function partitions the rune sequence
into groups of `chunkSize` runes (the final group holding the remainder).
-/

/-- The `for i := range s` loop body of `chunks`: `cur` is the current
chunk (`s[currentStart:i]`), `curLen` is `currentLen`.  Once the loop is
done the pending chunk (`s[currentStart:]`) is appended. -/
def chunksLoop (runes : List Char) (cur : List Char) (curLen chunkSize : Nat) :
    List (List Char) :=
  match runes with
  | [] => [cur]
  | r :: rest =>
    if curLen == chunkSize then
      cur :: chunksLoop rest [r] 1 chunkSize
    else
      chunksLoop rest (cur ++ [r]) (curLen + 1) chunkSize

/-- `chunks` from `utils.go`.  `len(s) == 0` returns nil; a `chunkSize` of
at least `len(s)` (Go byte length) returns the whole string; otherwise the
loop above splits the string. -/
def chunks (s : String) (chunkSize : Nat) : List String :=
  if s.utf8ByteSize = 0 then []
  else if chunkSize ≥ s.utf8ByteSize then [s]
  else (chunksLoop s.data [] 0 chunkSize).map String.mk

/-! ## DNS records and messages

The wire codec (`github.com/miekg/dns`) is an external library; per the
spec it is "assumed available as a library primitive".  We model only the
record and message structure the responder and resolver manipulate.
Record-type and class constants carry the values of the library. -/

def typeA : Nat := 1
def typePTR : Nat := 12
def typeTXT : Nat := 16
def typeAAAA : Nat := 28
def typeSRV : Nat := 33
def classINET : Nat := 1

/-- `qClassCacheFlush` from `server.go`: `1 << 15`. -/
def qClassCacheFlush : Nat := 1 <<< 15

/-- The cache-flush / unicast-response bit of a (q)class value. -/
def hasCacheFlush (c : Nat) : Bool := c &&& qClassCacheFlush != 0

/-- `dns.RR_Header`: owner name, record type, class and TTL. -/
structure RRHeader where
  name : String
  rrtype : Nat
  rrclass : Nat
  ttl : Nat
deriving DecidableEq, Repr, Inhabited

/-- The rdata variants the sources use (`dns.PTR`, `dns.SRV`, `dns.TXT`,
`dns.A`, `dns.AAAA`); IP addresses are opaque (`Nat`). -/
inductive RData where
  | ptr (target : String)
  | srv (priority weight port : Nat) (target : String)
  | txt (strings : List String)
  | a (addr : Nat)
  | aaaa (addr : Nat)
  | other
deriving DecidableEq, Repr, Inhabited

/-- A resource record. -/
structure RR where
  hdr : RRHeader
  rdata : RData
deriving DecidableEq, Repr, Inhabited

/-- `dns.Question`. -/
structure Question where
  name : String
  qtype : Nat
  qclass : Nat
deriving DecidableEq, Repr

/-- `dns.Msg`: the header bits and sections the sources read or write.
`response` is QR, `authoritative` is AA, `recursionDesired` is RD. -/
structure Msg where
  id : Nat := 0
  response : Bool := false
  opcode : Nat := 0
  authoritative : Bool := false
  recursionDesired : Bool := false
  rcode : Nat := 0
  compress : Bool := false
  question : List Question := []
  answer : List RR := []
  ns : List RR := []
  extra : List RR := []
deriving DecidableEq, Repr, Inhabited

/-- The zero `dns.Msg{}`. -/
def defaultMsg : Msg := {}

/-- `Msg.SetReply` of the external miekg/dns library (modelled from its
documented behavior): copy the id, mark the message a response, copy
opcode/RD for plain queries, reset the rcode, and echo the first
question.  Every field it touches is overwritten again by `handleQuery`
before use, except `response`. -/
def Msg.setReply (m query : Msg) : Msg :=
  { m with
    id := query.id
    response := true
    opcode := 0
    recursionDesired := if query.opcode = 0 then query.recursionDesired else m.recursionDesired
    rcode := 0
    question := match query.question with
      | [] => m.question
      | q :: _ => [q] }

/-! ## Service entry and derived names

`ServiceEntry`, `newServiceEntry` and the name builders live in the
repository's `service.go`, which is not part of the provided sources; they
are modelled from the spec (§3 data model and derived names).  The
resolver-only fields `Expiry`/`CacheFlush` are seconds (`Int`) and the
last observed cache-flush bit. -/

/-- Modelled from the spec: the shared `ServiceEntry` data model (§3). -/
structure ServiceEntry where
  Instance : String := ""
  Service : String := ""
  Subtypes : List String := []
  Domain : String := ""
  HostName : String := ""
  Port : Nat := 0
  Text : List String := []
  Expiry : Int := 0
  CacheFlush : Bool := false
  AddrIPv4 : List Nat := []
  AddrIPv6 : List Nat := []
deriving DecidableEq, Repr

/-- Modelled from the spec: `service_name() = "<service>.<domain>."`,
built with `trimDot` exactly as the in-repository `query` function builds
the same name. -/
def serviceNameOf (service domain : String) : String :=
  trimDot service ++ "." ++ trimDot domain ++ "."

/-- Modelled from the spec:
`service_instance_name() = "<instance>.<service>.<domain>."`; empty when
the instance label is empty (the spec's browse mode, "`instance` (empty ⇒
browse)", carries no instance filter). -/
def serviceInstanceNameOf (inst service domain : String) : String :=
  if inst = "" then "" else trimDot inst ++ "." ++ serviceNameOf service domain

/-- Modelled from the spec:
`service_type_name() = "_services._dns-sd._udp.<domain>."`. -/
def serviceTypeNameOf (domain : String) : String :=
  "_services._dns-sd._udp." ++ trimDot domain ++ "."

def ServiceEntry.ServiceName (e : ServiceEntry) : String :=
  serviceNameOf e.Service e.Domain

def ServiceEntry.ServiceInstanceName (e : ServiceEntry) : String :=
  serviceInstanceNameOf e.Instance e.Service e.Domain

def ServiceEntry.ServiceTypeName (e : ServiceEntry) : String :=
  serviceTypeNameOf e.Domain

/-- Modelled from the spec: `newServiceEntry` of the missing `service.go`
parses comma-separated subtypes out of the service argument (§6
"Subtypes") and stores the remaining fields verbatim; everything else is
zero. -/
def newServiceEntry (inst service domain : String) : ServiceEntry :=
  { Instance := inst, Service := (parseSubtypes service).1,
    Subtypes := (parseSubtypes service).2, Domain := domain }

/-- Modelled from the spec: `TxtRecords` of the missing `service.go`
splits each TXT value with `chunks(s, 255)` and concatenates the chunks in
insertion order; an empty TXT set is emitted as one zero-length string
(§4.4 TxtCodec). -/
def ServiceEntry.TxtRecords (e : ServiceEntry) : List String :=
  if e.Text = [] then [""] else e.Text.flatMap (fun t => chunks t 255)

/-! ## The responder (`server.go`)

Socket state is out of scope (spec §4.1 treats the transport as a
separate component); what the OS reports for an interface index
(`net.InterfaceByIndex` followed by `addrsForInterface`) is abstracted as
an oracle `NetEnv`.  `none` is a nil interface. -/

structure NetEnv where
  ifaceAddrs : Nat → Option (List Nat × List Nat)

/-- The `Server` fields the handlers read: the published entry, the
configured TTL and the interface indices it joined. -/
structure Server where
  service : ServiceEntry
  ttl : Nat
  ifaces : List Nat := []

/-- `appendAddrs` from `server.go`: use the entry's addresses, falling
back to the receiving interface's; clamp the TTL of A/AAAA records to 120
when positive; OR the cache-flush bit into the class when asked to. -/
def Server.appendAddrs (s : Server) (env : NetEnv) (list : List RR)
    (ttl : Nat) (ifIndex : Nat) (flushCache : Bool) : List RR :=
  let v4 := s.service.AddrIPv4
  let v6 := s.service.AddrIPv6
  let (v4, v6) :=
    if v4.length = 0 ∧ v6.length = 0 then
      match env.ifaceAddrs ifIndex with
      | some (a4, a6) => (v4 ++ a4, v6 ++ a6)
      | none => (v4, v6)
    else (v4, v6)
  let ttl := if ttl > 0 then 120 else ttl
  let cacheFlushBit := if flushCache then qClassCacheFlush else 0
  let list := list ++ v4.map (fun ip =>
    { hdr := { name := s.service.HostName, rrtype := typeA,
               rrclass := classINET ||| cacheFlushBit, ttl := ttl },
      rdata := RData.a ip })
  list ++ v6.map (fun ip =>
    { hdr := { name := s.service.HostName, rrtype := typeAAAA,
               rrclass := classINET ||| cacheFlushBit, ttl := ttl },
      rdata := RData.aaaa ip })

/-- `composeBrowsingAnswers` from `server.go`: a PTR in Answer; SRV, TXT
and the addresses in Extra, none carrying the cache-flush bit. -/
def Server.composeBrowsingAnswers (s : Server) (env : NetEnv) (resp : Msg)
    (ifIndex : Nat) : Msg :=
  let ptr : RR :=
    { hdr := { name := s.service.ServiceName, rrtype := typePTR,
               rrclass := classINET, ttl := s.ttl },
      rdata := RData.ptr s.service.ServiceInstanceName }
  let txt : RR :=
    { hdr := { name := s.service.ServiceInstanceName, rrtype := typeTXT,
               rrclass := classINET, ttl := s.ttl },
      rdata := RData.txt s.service.TxtRecords }
  let srv : RR :=
    { hdr := { name := s.service.ServiceInstanceName, rrtype := typeSRV,
               rrclass := classINET, ttl := s.ttl },
      rdata := RData.srv 0 0 s.service.Port s.service.HostName }
  let resp := { resp with answer := resp.answer ++ [ptr] }
  let resp := { resp with extra := resp.extra ++ [srv, txt] }
  { resp with extra := s.appendAddrs env resp.extra s.ttl ifIndex false }

/-- `composeLookupAnswers` from `server.go`: SRV and TXT (both with the
cache-flush bit OR'd into IN), the service PTR, the DNS-SD meta PTR and
one PTR per subtype in Answer, then the addresses appended to Answer with
the cache-flush bit only when `flushCache`. -/
def Server.composeLookupAnswers (s : Server) (env : NetEnv) (resp : Msg)
    (ttl : Nat) (ifIndex : Nat) (flushCache : Bool) : Msg :=
  let ptr : RR :=
    { hdr := { name := s.service.ServiceName, rrtype := typePTR,
               rrclass := classINET, ttl := ttl },
      rdata := RData.ptr s.service.ServiceInstanceName }
  let srv : RR :=
    { hdr := { name := s.service.ServiceInstanceName, rrtype := typeSRV,
               rrclass := classINET ||| qClassCacheFlush, ttl := ttl },
      rdata := RData.srv 0 0 s.service.Port s.service.HostName }
  let txt : RR :=
    { hdr := { name := s.service.ServiceInstanceName, rrtype := typeTXT,
               rrclass := classINET ||| qClassCacheFlush, ttl := ttl },
      rdata := RData.txt s.service.TxtRecords }
  let dnssd : RR :=
    { hdr := { name := s.service.ServiceTypeName, rrtype := typePTR,
               rrclass := classINET, ttl := ttl },
      rdata := RData.ptr s.service.ServiceName }
  let resp := { resp with answer := resp.answer ++ [srv, txt, ptr, dnssd] }
  let resp := { resp with
    answer := resp.answer ++ s.service.Subtypes.map (fun subtype =>
      ({ hdr := { name := subtype, rrtype := typePTR,
                  rrclass := classINET, ttl := ttl },
         rdata := RData.ptr s.service.ServiceInstanceName } : RR)) }
  { resp with answer := s.appendAddrs env resp.answer ttl ifIndex flushCache }

/-- `serviceTypeName` (the method on `Server`) from `server.go`: the
DNS-SD meta-enumeration PTR. -/
def Server.serviceTypeNameResp (s : Server) (resp : Msg) (ttl : Nat) : Msg :=
  let dnssd : RR :=
    { hdr := { name := s.service.ServiceTypeName, rrtype := typePTR,
               rrclass := classINET, ttl := ttl },
      rdata := RData.ptr s.service.ServiceName }
  { resp with answer := resp.answer ++ [dnssd] }

/-- `isKnownAnswer` from `server.go` (RFC 6762 §7.1): the first composed
answer must be a PTR; a known answer from the query suppresses it when it
is a PTR with the same rdata target and at least half the outgoing TTL
(Go `uint32` division).  For a record whose header says PTR but whose
rdata is not, the Go type assertion would panic; the unpacker never
produces such a record, and we return `false` there. -/
def isKnownAnswer (resp query : Msg) : Bool :=
  match resp.answer with
  | [] => false
  | ans :: _ =>
    if ans.hdr.rrtype != typePTR then false
    else
      match ans.rdata with
      | RData.ptr answerPtr =>
        query.answer.any (fun known =>
          known.hdr.rrtype == ans.hdr.rrtype &&
          match known.rdata with
          | RData.ptr p => p == answerPtr && known.hdr.ttl ≥ ans.hdr.ttl / 2
          | _ => false)
      | _ => false

/-- `handleQuestion` from `server.go`: dispatch on the question name
(first match, as the Go `switch` does), composing the meta, browsing,
lookup or subtype-browsing answer and applying known-answer suppression
on the PTR-headed ones. -/
def Server.handleQuestion (s : Server) (env : NetEnv) (q : Question)
    (resp : Msg) (query : Msg) (ifIndex : Nat) : Msg :=
  if q.name = s.service.ServiceTypeName then
    let resp := s.serviceTypeNameResp resp s.ttl
    if isKnownAnswer resp query then { resp with answer := [] } else resp
  else if q.name = s.service.ServiceName then
    let resp := s.composeBrowsingAnswers env resp ifIndex
    if isKnownAnswer resp query then { resp with answer := [] } else resp
  else if q.name = s.service.ServiceInstanceName then
    s.composeLookupAnswers env resp s.ttl ifIndex false
  else
    match s.service.Subtypes.find?
        (fun subtype => q.name = subtype ++ "._sub." ++ s.service.ServiceName) with
    | some _ =>
      let resp := s.composeBrowsingAnswers env resp ifIndex
      if isKnownAnswer resp query then { resp with answer := [] } else resp
    | none => resp

/-- `isUnicastQuestion` from `server.go`: the top bit of the qclass asks
for a unicast reply (RFC 6762 §18.12). -/
def isUnicastQuestion (q : Question) : Bool :=
  q.qclass &&& qClassCacheFlush != 0

/-- A send the responder hands to the transport: `unicastResponse(resp,
ifIndex, from)` or `multicastResponse(resp, ifIndex)`. -/
inductive SendAction where
  | unicast (resp : Msg) (ifIndex : Nat) (dst : Nat)
  | multicast (resp : Msg) (ifIndex : Nat)
deriving DecidableEq, Repr

/-- The per-question response skeleton `handleQuery` builds:
`SetReply`, `Compress = true`, `RecursionDesired = false`,
`Authoritative = true`, an emptied Question section (RFC 6762 §6) and
empty Answer/Extra. -/
def initialResp (query : Msg) : Msg :=
  let resp := Msg.setReply defaultMsg query
  { resp with
    compress := true
    recursionDesired := false
    authoritative := true
    question := []
    answer := []
    extra := [] }

/-- `handleQuery` from `server.go`: drop messages with a non-empty
Authority section, then handle each question, skip it when no answer
remains, and send unicast or multicast according to the question's top
qclass bit. -/
def Server.handleQuery (s : Server) (env : NetEnv) (query : Msg)
    (ifIndex : Nat) (frm : Nat) : List SendAction :=
  if query.ns.length > 0 then []
  else
    query.question.filterMap (fun q =>
      let resp := s.handleQuestion env q (initialResp query) query ifIndex
      if resp.answer.length = 0 then none
      else if isUnicastQuestion q then some (SendAction.unicast resp ifIndex frm)
      else some (SendAction.multicast resp ifIndex))

/-- One unsolicited announcement message as built per interface by the
`probe` task of `server.go`: a fresh message with only `Response = true`
and `Compress = true` set (note: not `Authoritative`), filled by
`composeLookupAnswers` with the configured TTL and `flushCache = true`. -/
def Server.announcementMsg (s : Server) (env : NetEnv) (ifIndex : Nat) : Msg :=
  let resp : Msg :=
    { defaultMsg with
      response := true
      compress := true
      answer := []
      extra := [] }
  s.composeLookupAnswers env resp s.ttl ifIndex true

/-- The message `announceText` (reached from `SetText`) sends: a fresh
response filled by `composeBrowsingAnswers` at interface index 0. -/
def Server.announceTextMsg (s : Server) (env : NetEnv) : Msg :=
  let resp : Msg := { defaultMsg with response := true }
  s.composeBrowsingAnswers env resp 0

/-- The goodbye `unregister` multicasts: `composeLookupAnswers` with TTL
0, interface index 0 and `flushCache = true`. -/
def Server.unregisterMsg (s : Server) (env : NetEnv) : Msg :=
  let resp : Msg :=
    { defaultMsg with
      response := true
      answer := []
      extra := [] }
  s.composeLookupAnswers env resp 0 0 true

/-! ## Receive loops

A loop is run against a finite trace of `ReadFrom` outcomes (the trace
ends when the shutdown channel / context fires); the result is the list
of datagrams the loop hands onward (`parsePacket` for the server,
`msgCh` for the client). -/

/-- One outcome of a blocking `ReadFrom`: a transient error or a
datagram (abstracted to a `Nat`). -/
inductive ReadResult where
  | err
  | pkt (p : Nat)
deriving DecidableEq, Repr

def ReadResult.pktOf : ReadResult → Option Nat
  | .err => none
  | .pkt p => some p

def ReadResult.isPkt : ReadResult → Bool
  | .err => false
  | .pkt _ => true

/-- The server's `recv4`/`recv6` loops from `server.go`: a read error is
`continue`d over and the next datagram is processed. -/
def serverRecvLoop : List ReadResult → List Nat
  | [] => []
  | .err :: rest => serverRecvLoop rest
  | .pkt p :: rest => p :: serverRecvLoop rest

/-- The client's `recv` loop from the resolver half of `server.go`: a
read error is stored in `fatalErr` and `continue`d, and the check at the
top of the loop then returns, so nothing after the first error is
processed. -/
def clientRecvLoop : List ReadResult → List Nat
  | [] => []
  | .err :: _ => []
  | .pkt p :: rest => p :: clientRecvLoop rest

/-! ## `Register` and `RegisterProxy`

Both are embedded up to the finished `ServiceEntry` the server would
publish; the socket construction (`newServer`) is the transport component
the spec scopes out, and its failure only turns a success into an error
without touching the entry. -/

/-- OS oracles `Register` consults: `os.Hostname` (`none` = lookup
failure) and `addrsForInterface` on each chosen interface. -/
structure RegisterEnv where
  osHostname : Option String
  ifaceAddrs : List (List Nat × List Nat)

/-- `Register` from `server.go` (entry construction part). -/
def registerEntry (inst service domain : String) (port : Nat)
    (text : List String) (env : RegisterEnv) : Except String ServiceEntry :=
  let entry := newServiceEntry inst service domain
  let entry := { entry with Port := port, Text := text }
  if entry.Instance = "" then .error "missing service instance name"
  else if entry.Service = "" then .error "missing service name"
  else
    let entry := if entry.Domain = "" then { entry with Domain := "local." } else entry
    if entry.Port = 0 then .error "missing port"
    else
      let hostRes : Except String String :=
        if entry.HostName = "" then
          match env.osHostname with
          | some h => .ok h
          | none => .error "could not determine host"
        else .ok entry.HostName
      match hostRes with
      | .error e => .error e
      | .ok h =>
        let entry := { entry with HostName := h }
        let qualified := trimDot entry.HostName ++ "." ++ trimDot entry.Domain ++ "."
        let entry :=
          if ¬ goHasSuffix (trimDot entry.HostName) entry.Domain then
            { entry with HostName := qualified }
          else entry
        let a4 := entry.AddrIPv4 ++ (env.ifaceAddrs.map Prod.fst).flatten
        let a6 := entry.AddrIPv6 ++ (env.ifaceAddrs.map Prod.snd).flatten
        let entry := { entry with AddrIPv4 := a4, AddrIPv6 := a6 }
        if entry.AddrIPv4 = [] ∧ entry.AddrIPv6 = [] then
          .error "could not determine host IP addresses"
        else .ok entry

/-- A `net.ParseIP` result: `invalid` is a nil return, otherwise the
parsed address classified by `To4`. -/
inductive ParsedIP where
  | invalid
  | v4 (a : Nat)
  | v6 (a : Nat)
deriving DecidableEq, Repr

/-- The `for _, ip := range ips` loop of `RegisterProxy`. -/
def addParsedIPs (entry : ServiceEntry) : List ParsedIP → Except String ServiceEntry
  | [] => .ok entry
  | .invalid :: _ => .error "failed to parse given IP"
  | .v4 a :: rest => addParsedIPs { entry with AddrIPv4 := entry.AddrIPv4 ++ [a] } rest
  | .v6 a :: rest => addParsedIPs { entry with AddrIPv6 := entry.AddrIPv6 ++ [a] } rest

/-- `RegisterProxy` from `server.go` (entry construction part). -/
def registerProxyEntry (inst service domain : String) (port : Nat)
    (host : String) (ips : List ParsedIP) (text : List String) :
    Except String ServiceEntry :=
  let entry := newServiceEntry inst service domain
  let entry := { entry with Port := port, Text := text, HostName := host }
  if entry.Instance = "" then .error "missing service instance name"
  else if entry.Service = "" then .error "missing service name"
  else if entry.HostName = "" then .error "missing host name"
  else
    let entry := if entry.Domain = "" then { entry with Domain := "local" } else entry
    if entry.Port = 0 then .error "missing port"
    else
      let qualified := trimDot entry.HostName ++ "." ++ trimDot entry.Domain ++ "."
      let entry :=
        if ¬ goHasSuffix (trimDot entry.HostName) entry.Domain then
          { entry with HostName := qualified }
        else entry
      addParsedIPs entry ips

/-! ## The resolver's fusion loop

`mainloop` processes one decoded message at a time: pass 1 creates or
updates entries from PTR/SRV/TXT records, pass 2 attaches A/AAAA
addresses by hostname, and the delivery loop filters by expiry and the
already-sent cache.  The Go `entries` map is modelled as an association
list in insertion order (Go map iteration order is unspecified; no claim
depends on it). -/

/-- Modelled from the spec: `lookupParams` (§4.3) — the missing
`service.go` derives the same names from instance/service/domain. -/
structure LookupParams where
  Instance : String := ""
  Service : String
  Domain : String := "local"
  isBrowsing : Bool := false

def LookupParams.ServiceName (p : LookupParams) : String :=
  serviceNameOf p.Service p.Domain

def LookupParams.ServiceInstanceName (p : LookupParams) : String :=
  serviceInstanceNameOf p.Instance p.Service p.Domain

def lookupEntry (l : List (String × ServiceEntry)) (k : String) :
    Option ServiceEntry :=
  (l.find? (fun kv => kv.1 = k)).map Prod.snd

def setEntry (l : List (String × ServiceEntry)) (k : String) (e : ServiceEntry) :
    List (String × ServiceEntry) :=
  if (l.find? (fun kv => kv.1 = k)).isSome then
    l.map (fun kv => if kv.1 = k then (k, e) else kv)
  else l ++ [(k, e)]

def updateEntry (l : List (String × ServiceEntry)) (k : String)
    (f : ServiceEntry → ServiceEntry) : List (String × ServiceEntry) :=
  l.map (fun kv => if kv.1 = k then (kv.1, f kv.2) else kv)

def removeEntry (l : List (String × ServiceEntry)) (k : String) :
    List (String × ServiceEntry) :=
  l.filter (fun kv => kv.1 ≠ k)

/-- Ensure a key is present, inserting a fresh entry when missing (the
`if _, found := entries[k]; !found` pattern of `mainloop`). -/
def ensureEntry (l : List (String × ServiceEntry)) (k : String)
    (fresh : ServiceEntry) : List (String × ServiceEntry) :=
  if (lookupEntry l k).isSome then l else l ++ [(k, fresh)]

/-- Pass 1 of `mainloop` for a single record: PTR selects by owner name
(and instance filter) and keys by the PTR target; SRV/TXT select by the
instance filter or a service-name suffix and key by the owner.  All three
stamp expiry (`now + ttl` seconds) and the observed cache-flush bit
(`class > 32768`). -/
def pass1Step (p : LookupParams) (now : Int)
    (acc : List (String × ServiceEntry)) (rr : RR) :
    List (String × ServiceEntry) :=
  match rr.rdata with
  | RData.ptr tgt =>
    if p.ServiceName ≠ rr.hdr.name then acc
    else if p.ServiceInstanceName ≠ "" ∧ p.ServiceInstanceName ≠ tgt then acc
    else
      let acc := ensureEntry acc tgt
        (newServiceEntry (trimDot (String.mk (goRemoveAll tgt.data rr.hdr.name.data)))
          p.Service p.Domain)
      updateEntry acc tgt (fun e =>
        { e with Expiry := now + rr.hdr.ttl,
                 CacheFlush := decide (rr.hdr.rrclass > 32768) })
  | RData.srv _ _ port tgt =>
    if p.ServiceInstanceName ≠ "" ∧ p.ServiceInstanceName ≠ rr.hdr.name then acc
    else if ¬ goHasSuffix rr.hdr.name p.ServiceName then acc
    else
      let acc := ensureEntry acc rr.hdr.name
        (newServiceEntry
          (trimDot (String.mk (goRemoveFirst rr.hdr.name.data p.ServiceName.data)))
          p.Service p.Domain)
      updateEntry acc rr.hdr.name (fun e =>
        { e with HostName := tgt, Port := port,
                 Expiry := now + rr.hdr.ttl,
                 CacheFlush := decide (rr.hdr.rrclass > 32768) })
  | RData.txt txts =>
    if p.ServiceInstanceName ≠ "" ∧ p.ServiceInstanceName ≠ rr.hdr.name then acc
    else if ¬ goHasSuffix rr.hdr.name p.ServiceName then acc
    else
      let acc := ensureEntry acc rr.hdr.name
        (newServiceEntry
          (trimDot (String.mk (goRemoveFirst rr.hdr.name.data p.ServiceName.data)))
          p.Service p.Domain)
      updateEntry acc rr.hdr.name (fun e =>
        { e with Text := txts,
                 Expiry := now + rr.hdr.ttl,
                 CacheFlush := decide (rr.hdr.rrclass > 32768) })
  | _ => acc

/-- Pass 2 of `mainloop` for a single record: attach A/AAAA addresses to
every entry whose hostname equals the record's owner. -/
def pass2Step (acc : List (String × ServiceEntry)) (rr : RR) :
    List (String × ServiceEntry) :=
  match rr.rdata with
  | RData.a addr =>
    acc.map (fun kv =>
      if kv.2.HostName = rr.hdr.name then
        (kv.1, { kv.2 with AddrIPv4 := kv.2.AddrIPv4 ++ [addr] })
      else kv)
  | RData.aaaa addr =>
    acc.map (fun kv =>
      if kv.2.HostName = rr.hdr.name then
        (kv.1, { kv.2 with AddrIPv6 := kv.2.AddrIPv6 ++ [addr] })
      else kv)
  | _ => acc

/-- The delivery loop at the bottom of `mainloop`: drop (and evict)
expired entries; skip an already-sent entry unless it refreshes the
expiry to within a minute of the old one or carries the cache-flush bit;
deliver the rest on the subscriber channel and record them as sent. -/
def deliveryLoop (now : Int) (entries : List (String × ServiceEntry))
    (sent0 : List (String × ServiceEntry)) :
    List ServiceEntry × List (String × ServiceEntry) :=
  entries.foldl (fun st kv =>
    let e := kv.2
    if ¬ now < e.Expiry then (st.1, removeEntry st.2 kv.1)
    else
      match lookupEntry st.2 kv.1 with
      | some prev =>
        if ¬ prev.Expiry - 60 < e.Expiry ∧ e.CacheFlush = false then st
        else (st.1 ++ [e], setEntry st.2 kv.1 e)
      | none => (st.1 ++ [e], setEntry st.2 kv.1 e))
    ([], sent0)

/-- Processing of one decoded message by `mainloop`: scan
`Answer ++ Ns ++ Extra` in the two passes, then run the delivery loop.
Returns the entries delivered to the subscriber and the updated
sent-entries cache. -/
def processMsg (p : LookupParams) (now : Int)
    (sent : List (String × ServiceEntry)) (msg : Msg) :
    List ServiceEntry × List (String × ServiceEntry) :=
  let sections := msg.answer ++ msg.ns ++ msg.extra
  let entries := sections.foldl (pass1Step p now) []
  let entries := sections.foldl pass2Step entries
  deliveryLoop now entries sent

/-! ## Shared fixtures for concrete checks -/

/-- An environment whose interface lookups all fail; the fixture entry
below carries its own addresses, so it is never consulted. -/
def sampleEnv : NetEnv := ⟨fun _ => none⟩

def sampleEntry : ServiceEntry :=
  { Instance := "Printer", Service := "_ipp._tcp", Subtypes := [],
    Domain := "local", HostName := "myhost.local.", Port := 631,
    Text := ["rp=ipp/print"], AddrIPv4 := [1], AddrIPv6 := [2] }

def sampleServer : Server := { service := sampleEntry, ttl := 3200, ifaces := [1] }

lemma chunksLoop_flatten (runes : List Char) :
    ∀ (cur : List Char) (n cs : Nat),
      (chunksLoop runes cur n cs).flatten = cur ++ runes := by
  induction runes with
  | nil =>
    intro cur n cs
    simp [chunksLoop]
  | cons r rest ih =>
    intro cur n cs
    simp only [chunksLoop]
    split
    · simp [ih]
    · rw [ih]
      simp

lemma utf8ByteSize_zero (s : String) (h : s.utf8ByteSize = 0) : s.data = [] := by
  cases s with
  | mk data =>
    cases data with
    | nil => rfl
    | cons c cs =>
      exfalso
      have h1 : 0 < c.utf8Size := Char.utf8Size_pos c
      simp [String.utf8ByteSize, String.utf8ByteSize.go] at h
      omega

lemma join_map_mk_data (gs : List (List Char)) :
    (String.join (gs.map String.mk)).data = gs.flatten := by
  suffices h : ∀ (init : String),
      ((gs.map String.mk).foldl (· ++ ·) init).data = init.data ++ gs.flatten by
    simpa [String.join] using h ""
  induction gs with
  | nil => intro init; simp
  | cons g rest ih =>
    intro init
    simp only [List.map_cons, List.foldl_cons, List.flatten_cons]
    rw [ih]
    simp

theorem chunks_join_id (s : String) (chunkSize : Nat) (h : 1 ≤ chunkSize) :
    String.join (chunks s chunkSize) = s := by
  unfold chunks
  split
  · next h0 =>
    apply String.ext
    simp [String.join, utf8ByteSize_zero s h0]
  · split
    · apply String.ext
      simp [String.join]
    · apply String.ext
      rw [join_map_mk_data, chunksLoop_flatten]
      simp

theorem chunks_join_id_witness :
    1 ≤ 2 ∧ String.join (chunks "hello" 2) = "hello" :=
  ⟨by decide, chunks_join_id "hello" 2 (by decide)⟩

/-- Claim C9, evaluation at the failing input: `chunks` counts runes,
not bytes, so 64 four-byte runes (256 bytes) survive `chunks(s, 255)` as
a single 256-byte string — over the 255-byte limit the claim states. -/
theorem chunks_rune_counting_eval :
    chunks (String.mk (List.replicate 64 '😀')) 255 =
      [String.mk (List.replicate 64 '😀')] ∧
    (String.mk (List.replicate 64 '😀')).utf8ByteSize = 256 ∧
    ((chunks (String.mk (List.replicate 64 '😀')) 255).all
      (fun c => decide (c.utf8ByteSize ≤ 255))) = false :=
  ⟨rfl, rfl, rfl⟩

/-- Claim C6, counterexample: after a read error the client `recv` loop
processes nothing further, while the server loop does continue. -/
theorem clientRecv_counterexample :
    clientRecvLoop [ReadResult.err, ReadResult.pkt 7] = [] ∧
    serverRecvLoop [ReadResult.err, ReadResult.pkt 7] = [7] := ⟨rfl, rfl⟩

/-- Claim C6 (amended): the server `recv4`/`recv6` loops survive read
errors and process every datagram of the trace; the client `recv` loop
processes only the datagrams before the first read error and then
terminates. -/
theorem recvLoop_error_behavior (trace : List ReadResult) :
    serverRecvLoop trace = trace.filterMap ReadResult.pktOf ∧
    clientRecvLoop trace = (trace.takeWhile ReadResult.isPkt).filterMap ReadResult.pktOf := by
  constructor
  · induction trace with
    | nil => rfl
    | cons hd tl ih => cases hd <;> simp [serverRecvLoop, ReadResult.pktOf, ih]
  · induction trace with
    | nil => rfl
    | cons hd tl ih =>
      cases hd <;> simp [clientRecvLoop, ReadResult.pktOf, ReadResult.isPkt, List.takeWhile, ih]

/-- Every record `appendAddrs` appends is an A/AAAA record for the
service host, with the clamped TTL and the requested cache-flush bit;
existing records pass through unchanged. -/
lemma appendAddrs_shape (s : Server) (env : NetEnv) (list : List RR)
    (ttl ifIndex : Nat) (flush : Bool) :
    ∃ v4 v6 : List Nat,
      s.appendAddrs env list ttl ifIndex flush =
        (list ++ v4.map (fun ip =>
          ({ hdr := { name := s.service.HostName, rrtype := typeA,
                      rrclass := classINET ||| (if flush then qClassCacheFlush else 0),
                      ttl := if ttl > 0 then 120 else ttl },
             rdata := RData.a ip } : RR)))
          ++ v6.map (fun ip =>
          ({ hdr := { name := s.service.HostName, rrtype := typeAAAA,
                      rrclass := classINET ||| (if flush then qClassCacheFlush else 0),
                      ttl := if ttl > 0 then 120 else ttl },
             rdata := RData.aaaa ip } : RR)) := by
  unfold Server.appendAddrs
  exact ⟨_, _, rfl⟩

/-- Claim C1, counterexample: with `flushCache = false` the first record
`composeLookupAnswers` emits is an SRV that nevertheless carries the
cache-flush bit, against the claimed "iff `flush=true`". -/
theorem lookupAnswers_flushArg_counterexample :
    ((sampleServer.composeLookupAnswers sampleEnv defaultMsg 3200 0 false).answer.head?).map
        (fun rr => (rr.hdr.rrtype, hasCacheFlush rr.hdr.rrclass)) = some (typeSRV, true) := by
  rfl

/-- Claim C1 (amended): in every `composeLookupAnswers` message the SRV
and TXT records always carry the cache-flush bit, the A/AAAA records
carry it iff `flushCache` is true, and no PTR record ever carries it. -/
theorem composeLookupAnswers_cacheFlush_bits (s : Server) (env : NetEnv)
    (m : Msg) (ttl ifIndex : Nat) (flush : Bool) (h : m.answer = []) :
    ∀ rr ∈ (s.composeLookupAnswers env m ttl ifIndex flush).answer,
      ((rr.hdr.rrtype = typeSRV ∨ rr.hdr.rrtype = typeTXT) →
        hasCacheFlush rr.hdr.rrclass = true) ∧
      ((rr.hdr.rrtype = typeA ∨ rr.hdr.rrtype = typeAAAA) →
        hasCacheFlush rr.hdr.rrclass = flush) ∧
      (rr.hdr.rrtype = typePTR → hasCacheFlush rr.hdr.rrclass = false) := by
  intro rr hrr
  simp only [Server.composeLookupAnswers] at hrr
  obtain ⟨v4, v6, hshape⟩ := appendAddrs_shape s env _ ttl ifIndex flush
  rw [hshape, h] at hrr
  simp only [List.nil_append, List.mem_append, List.mem_cons, List.not_mem_nil, or_false,
    List.mem_map] at hrr
  have hset : hasCacheFlush (classINET ||| qClassCacheFlush) = true := by decide
  have hclear : hasCacheFlush classINET = false := by decide
  have haddr : hasCacheFlush (classINET ||| if flush then qClassCacheFlush else 0) = flush := by
    cases flush <;> decide
  have hsrv1 : ¬(typeSRV = typeA ∨ typeSRV = typeAAAA) := by decide
  have hsrv2 : typeSRV ≠ typePTR := by decide
  have htxt1 : ¬(typeTXT = typeA ∨ typeTXT = typeAAAA) := by decide
  have htxt2 : typeTXT ≠ typePTR := by decide
  have hptr1 : ¬(typePTR = typeSRV ∨ typePTR = typeTXT) := by decide
  have hptr2 : ¬(typePTR = typeA ∨ typePTR = typeAAAA) := by decide
  have ha1 : ¬(typeA = typeSRV ∨ typeA = typeTXT) := by decide
  have ha2 : typeA ≠ typePTR := by decide
  have haaaa1 : ¬(typeAAAA = typeSRV ∨ typeAAAA = typeTXT) := by decide
  have haaaa2 : typeAAAA ≠ typePTR := by decide
  rcases hrr with (((rfl | rfl | rfl | rfl) | ⟨st, hst, rfl⟩) | ⟨ip, hip, rfl⟩) | ⟨ip, hip, rfl⟩
  · exact ⟨fun _ => hset, fun hx => absurd hx hsrv1, fun hx => absurd hx hsrv2⟩
  · exact ⟨fun _ => hset, fun hx => absurd hx htxt1, fun hx => absurd hx htxt2⟩
  · exact ⟨fun hx => absurd hx hptr1, fun hx => absurd hx hptr2, fun _ => hclear⟩
  · exact ⟨fun hx => absurd hx hptr1, fun hx => absurd hx hptr2, fun _ => hclear⟩
  · exact ⟨fun hx => absurd hx hptr1, fun hx => absurd hx hptr2, fun _ => hclear⟩
  · exact ⟨fun hx => absurd hx ha1, fun _ => haddr, fun hx => absurd hx ha2⟩
  · exact ⟨fun hx => absurd hx haaaa1, fun _ => haddr, fun hx => absurd hx haaaa2⟩

theorem composeLookupAnswers_cacheFlush_bits_witness :
    defaultMsg.answer = ([] : List RR) ∧
    hasCacheFlush
      ((sampleServer.composeLookupAnswers sampleEnv defaultMsg 3200 0 true).answer.headI.hdr.rrclass)
      = true := by
  refine ⟨rfl, ?_⟩
  have h := composeLookupAnswers_cacheFlush_bits sampleServer sampleEnv defaultMsg 3200 0 true rfl
  have hm := h ((sampleServer.composeLookupAnswers sampleEnv defaultMsg 3200 0 true).answer.headI)
    (by decide)
  exact hm.1 (by decide)

/-- Claim C2, evaluation at the failing input: the unsolicited announcement
built by the probe task is a response with an empty Question section and
`RD=0`, but its AA bit is `false`; the SetText re-announcement and the
goodbye also leave AA at `false` (the claim requires `AA=1` on all of
them; the per-question replies of `handleQuery` do set it). -/
theorem announcements_not_authoritative_eval :
    ((sampleServer.announcementMsg sampleEnv 1).response,
     (sampleServer.announcementMsg sampleEnv 1).authoritative,
     (sampleServer.announcementMsg sampleEnv 1).recursionDesired,
     (sampleServer.announcementMsg sampleEnv 1).question) = (true, false, false, []) ∧
    (sampleServer.announceTextMsg sampleEnv).authoritative = false ∧
    (sampleServer.unregisterMsg sampleEnv).authoritative = false :=
  ⟨rfl, rfl, rfl⟩


/-- Claim C4: in every record set the responder composes, A/AAAA records carry
TTL 120 exactly when the supplied TTL is positive, every other record
carries the supplied TTL unchanged; and the `unregister` goodbye consists
of exactly the records of the per-interface announcement with every TTL
replaced by 0. -/
theorem emitted_ttls_and_goodbye (s : Server) (env : NetEnv) (m : Msg)
    (ttl ifIndex : Nat) (flush : Bool) (hA : m.answer = []) (hE : m.extra = []) :
    (∀ rr ∈ (s.composeLookupAnswers env m ttl ifIndex flush).answer,
        rr.hdr.ttl = if rr.hdr.rrtype = typeA ∨ rr.hdr.rrtype = typeAAAA
          then (if 0 < ttl then 120 else ttl) else ttl) ∧
    (∀ rr ∈ (s.composeBrowsingAnswers env m ifIndex).answer ++
        (s.composeBrowsingAnswers env m ifIndex).extra,
        rr.hdr.ttl = if rr.hdr.rrtype = typeA ∨ rr.hdr.rrtype = typeAAAA
          then (if 0 < s.ttl then 120 else s.ttl) else s.ttl) ∧
    (s.unregisterMsg env).answer =
      ((s.announcementMsg env 0).answer).map
        (fun rr => { rr with hdr := { rr.hdr with ttl := 0 } }) ∧
    (∀ rr ∈ (s.unregisterMsg env).answer, rr.hdr.ttl = 0) := by
  have hmap : (s.unregisterMsg env).answer =
      ((s.announcementMsg env 0).answer).map
        (fun rr => { rr with hdr := { rr.hdr with ttl := 0 } }) := by
    simp only [Server.unregisterMsg, Server.announcementMsg, Server.composeLookupAnswers,
      Server.appendAddrs, List.map_append, List.map_map]
    rfl
  refine ⟨?_, ?_, hmap, ?_⟩
  · intro rr hrr
    simp only [Server.composeLookupAnswers] at hrr
    obtain ⟨v4, v6, hshape⟩ := appendAddrs_shape s env _ ttl ifIndex flush
    rw [hshape, hA] at hrr
    simp only [List.nil_append, List.mem_append, List.mem_cons, List.not_mem_nil, or_false,
      List.mem_map] at hrr
    rcases hrr with (((rfl | rfl | rfl | rfl) | ⟨st, hst, rfl⟩) | ⟨ip, hip, rfl⟩) |
      ⟨ip, hip, rfl⟩ <;>
      simp [typeA, typeAAAA, typeSRV, typeTXT, typePTR]
  · intro rr hrr
    simp only [Server.composeBrowsingAnswers] at hrr
    obtain ⟨v4, v6, hshape⟩ := appendAddrs_shape s env _ s.ttl ifIndex false
    rw [hshape, hA, hE] at hrr
    simp only [List.nil_append, List.mem_append, List.mem_cons, List.not_mem_nil, or_false,
      List.mem_map] at hrr
    rcases hrr with (rfl | (((rfl | rfl) | ⟨ip, hip, rfl⟩) | ⟨ip, hip, rfl⟩)) <;>
      simp [typeA, typeAAAA, typeSRV, typeTXT, typePTR]
  · intro rr hrr
    rw [hmap] at hrr
    obtain ⟨rr', _, rfl⟩ := List.mem_map.mp hrr
    rfl

theorem emitted_ttls_and_goodbye_witness :
    defaultMsg.answer = ([] : List RR) ∧ defaultMsg.extra = ([] : List RR) ∧
    (sampleServer.composeLookupAnswers sampleEnv defaultMsg 3200 0 true).answer.headI.hdr.ttl
      = 3200 := by
  refine ⟨rfl, rfl, ?_⟩
  have h := (emitted_ttls_and_goodbye sampleServer sampleEnv defaultMsg 3200 0 true rfl rfl).1
  have hm := h ((sampleServer.composeLookupAnswers sampleEnv defaultMsg 3200 0 true).answer.headI)
    (by decide)
  rw [hm, if_neg (by decide)]

/-- Claim C5: a question answered non-emptily is sent unicast to the sender's
source address exactly when the top bit of its qclass is set, and
multicast on the receiving interface otherwise. -/
theorem unicast_bit_selects_unicast (s : Server) (env : NetEnv) (query : Msg)
    (ifIndex frm : Nat) (q : Question)
    (hns : query.ns = []) (hq : query.question = [q])
    (hans : (s.handleQuestion env q (initialResp query) query ifIndex).answer ≠ []) :
    s.handleQuery env query ifIndex frm =
      [ if q.qclass &&& qClassCacheFlush ≠ 0 then
          SendAction.unicast (s.handleQuestion env q (initialResp query) query ifIndex)
            ifIndex frm
        else
          SendAction.multicast (s.handleQuestion env q (initialResp query) query ifIndex)
            ifIndex ] := by
  unfold Server.handleQuery
  rw [hns, hq]
  rw [if_neg (by decide : ¬ ([] : List RR).length > 0)]
  simp only [List.filterMap_cons, List.filterMap_nil]
  have hlen : ¬ (s.handleQuestion env q (initialResp query) query ifIndex).answer.length = 0 := by
    rw [List.length_eq_zero]
    exact hans
  rw [if_neg hlen]
  by_cases hu : q.qclass &&& qClassCacheFlush = 0
  · have hb : isUnicastQuestion q = false := by
      simp [isUnicastQuestion, hu]
    rw [if_neg (by simp [hb] : ¬ isUnicastQuestion q = true)]
    rw [if_neg (by simpa using hu)]
  · have hb : isUnicastQuestion q = true := by
      simp [isUnicastQuestion, hu]
    rw [if_pos hb]
    rw [if_pos hu]

def sampleUQ : Question :=
  { name := "_ipp._tcp.local.", qtype := typePTR, qclass := 32769 }

def sampleUQuery : Msg := { question := [sampleUQ] }

theorem unicast_bit_selects_unicast_witness :
    sampleUQuery.ns = ([] : List RR) ∧
    sampleUQuery.question = [sampleUQ] ∧
    (sampleServer.handleQuestion sampleEnv sampleUQ (initialResp sampleUQuery) sampleUQuery
      7).answer ≠ [] ∧
    sampleServer.handleQuery sampleEnv sampleUQuery 7 9 =
      [ if sampleUQ.qclass &&& qClassCacheFlush ≠ 0 then
          SendAction.unicast
            (sampleServer.handleQuestion sampleEnv sampleUQ (initialResp sampleUQuery)
              sampleUQuery 7) 7 9
        else
          SendAction.multicast
            (sampleServer.handleQuestion sampleEnv sampleUQ (initialResp sampleUQuery)
              sampleUQuery 7) 7 ] :=
  ⟨rfl, rfl, by decide,
    unicast_bit_selects_unicast sampleServer sampleEnv sampleUQuery 7 9 sampleUQ rfl rfl
      (by decide)⟩


/-- When the first composed answer is a PTR with target `R` and a known
answer of the query is a PTR for `R` with at least half its TTL,
`isKnownAnswer` fires. -/
lemma isKnownAnswer_of_head (resp query : Msg) (nm : String) (cls ttl0 : Nat)
    (R : String) (rest : List RR)
    (hresp : resp.answer =
      { hdr := { name := nm, rrtype := typePTR, rrclass := cls, ttl := ttl0 },
        rdata := RData.ptr R } :: rest)
    (hknown : ∃ k ∈ query.answer, k.hdr.rrtype = typePTR ∧ k.rdata = RData.ptr R ∧
      ttl0 / 2 ≤ k.hdr.ttl) :
    isKnownAnswer resp query = true := by
  obtain ⟨k, hk, hty, hrd, httl⟩ := hknown
  simp only [isKnownAnswer, hresp, bne_self_eq_false, Bool.false_eq_true, if_false,
    List.any_eq_true]
  refine ⟨k, hk, ?_⟩
  rw [hrd]
  simp [hty, httl]

/-- Claim C3: if the inbound query carries, in its Answer section, a PTR known
answer with the same rdata target as the PTR the responder is about to
answer with (the meta, browsing or subtype-browsing PTR) and at least
half of the outgoing TTL remains, the response's Answer section is
cleared and nothing is sent for that question. -/
theorem knownAnswer_suppresses_ptr_response (s : Server) (env : NetEnv)
    (query : Msg) (ifIndex frm : Nat) (q : Question) (R : String)
    (hns : query.ns = [])
    (hq : query.question = [q])
    (hcase :
      (q.name = s.service.ServiceTypeName ∧ R = s.service.ServiceName) ∨
      (q.name ≠ s.service.ServiceTypeName ∧ q.name = s.service.ServiceName ∧
        R = s.service.ServiceInstanceName) ∨
      (q.name ≠ s.service.ServiceTypeName ∧ q.name ≠ s.service.ServiceName ∧
        q.name ≠ s.service.ServiceInstanceName ∧
        (∃ st ∈ s.service.Subtypes,
          q.name = st ++ "._sub." ++ s.service.ServiceName) ∧
        R = s.service.ServiceInstanceName))
    (hknown : ∃ k ∈ query.answer, k.hdr.rrtype = typePTR ∧ k.rdata = RData.ptr R ∧
      s.ttl / 2 ≤ k.hdr.ttl) :
    s.handleQuery env query ifIndex frm = [] := by
  unfold Server.handleQuery
  rw [hns, hq, if_neg (by decide : ¬ ([] : List RR).length > 0)]
  simp only [List.filterMap_cons, List.filterMap_nil]
  suffices hanz : (s.handleQuestion env q (initialResp query) query ifIndex).answer = [] by
    simp [hanz]
  unfold Server.handleQuestion
  rcases hcase with ⟨hqn, rfl⟩ | ⟨hne1, hqn, rfl⟩ | ⟨hne1, hne2, hne3, ⟨st, hst, hfmt⟩, rfl⟩
  · rw [if_pos hqn]
    rw [if_pos (isKnownAnswer_of_head _ query _ _ _ _ _ rfl hknown)]
  · rw [if_neg hne1, if_pos hqn]
    rw [if_pos (isKnownAnswer_of_head _ query _ _ _ _ _ rfl hknown)]
  · rw [if_neg hne1, if_neg hne2, if_neg hne3]
    rcases hfind : s.service.Subtypes.find?
        (fun subtype => q.name = subtype ++ "._sub." ++ s.service.ServiceName) with _ | st'
    · exact (List.find?_eq_none.mp hfind st hst (by simp [hfmt])).elim
    · simp only [hfind]
      rw [if_pos (isKnownAnswer_of_head _ query _ _ _ _ _ rfl hknown)]

def sampleKAQ : Question :=
  { name := "_ipp._tcp.local.", qtype := typePTR, qclass := classINET }

def sampleKAQuery : Msg :=
  { question := [sampleKAQ],
    answer := [ { hdr := { name := "_ipp._tcp.local.", rrtype := typePTR,
                           rrclass := classINET, ttl := 3200 },
                  rdata := RData.ptr "Printer._ipp._tcp.local." } ] }

theorem knownAnswer_suppresses_ptr_response_witness :
    sampleKAQuery.ns = ([] : List RR) ∧
    sampleKAQuery.question = [sampleKAQ] ∧
    (sampleKAQ.name ≠ sampleServer.service.ServiceTypeName ∧
      sampleKAQ.name = sampleServer.service.ServiceName ∧
      "Printer._ipp._tcp.local." = sampleServer.service.ServiceInstanceName) ∧
    (∃ k ∈ sampleKAQuery.answer, k.hdr.rrtype = typePTR ∧
      k.rdata = RData.ptr "Printer._ipp._tcp.local." ∧
      sampleServer.ttl / 2 ≤ k.hdr.ttl) ∧
    sampleServer.handleQuery sampleEnv sampleKAQuery 3 4 = [] :=
  ⟨rfl, rfl, by decide, by decide,
    knownAnswer_suppresses_ptr_response sampleServer sampleEnv sampleKAQuery 3 4 sampleKAQ
      "Printer._ipp._tcp.local." rfl rfl (Or.inr (Or.inl (by decide))) (by decide)⟩


/-- The `for _, ip := range ips` loop never touches the hostname. -/
lemma addParsedIPs_hostName (ips : List ParsedIP) : ∀ (en e : ServiceEntry),
    addParsedIPs en ips = Except.ok e → e.HostName = en.HostName := by
  induction ips with
  | nil =>
    intro en e h
    cases h
    rfl
  | cons ip rest ih =>
    intro en e h
    cases ip with
    | invalid => exact absurd h (by simp [addParsedIPs])
    | v4 a =>
      simp only [addParsedIPs] at h
      rw [ih _ _ h]
    | v6 a =>
      simp only [addParsedIPs] at h
      rw [ih _ _ h]

/-- Claim C8 (amended): on success the host name gets `.<domain>.` appended
exactly when the trimmed supplied host does not already end with the
(defaulted) domain as a raw string suffix; a host that passes that suffix
test is kept verbatim, trailing dot or not. -/
theorem register_hostname_suffix :
    (∀ (inst service domain host : String) (port : Nat) (ips : List ParsedIP)
        (text : List String) (e : ServiceEntry),
      registerProxyEntry inst service domain port host ips text = Except.ok e →
      (goHasSuffix (trimDot host) (if domain = "" then "local" else domain) = true →
        e.HostName = host) ∧
      (goHasSuffix (trimDot host) (if domain = "" then "local" else domain) = false →
        e.HostName = trimDot host ++ "." ++
          trimDot (if domain = "" then "local" else domain) ++ ".")) ∧
    (∀ (inst service domain : String) (port : Nat) (text : List String)
        (env : RegisterEnv) (h : String) (e : ServiceEntry),
      env.osHostname = some h →
      registerEntry inst service domain port text env = Except.ok e →
      (goHasSuffix (trimDot h) (if domain = "" then "local." else domain) = true →
        e.HostName = h) ∧
      (goHasSuffix (trimDot h) (if domain = "" then "local." else domain) = false →
        e.HostName = trimDot h ++ "." ++
          trimDot (if domain = "" then "local." else domain) ++ ".")) := by
  constructor
  · intro inst service domain host port ips text e hok
    by_cases h1 : inst = ""
    · simp [registerProxyEntry, newServiceEntry, h1] at hok
    by_cases h2 : (parseSubtypes service).1 = ""
    · simp [registerProxyEntry, newServiceEntry, h1, h2] at hok
    by_cases h3 : host = ""
    · simp [registerProxyEntry, newServiceEntry, h1, h2, h3] at hok
    by_cases hdom : domain = ""
    · subst hdom
      by_cases h4 : port = 0
      · simp [registerProxyEntry, newServiceEntry, h1, h2, h3, h4] at hok
      by_cases hsuf : goHasSuffix (trimDot host) "local" = true
      · simp [registerProxyEntry, newServiceEntry, h1, h2, h3, h4, hsuf] at hok
        refine ⟨fun _ => ?_, fun hfalse => absurd hfalse (by simp [hsuf])⟩
        rw [addParsedIPs_hostName ips _ e hok]
      · have hsuf' : goHasSuffix (trimDot host) "local" = false := by
          revert hsuf
          cases goHasSuffix (trimDot host) "local" <;> simp
        simp [registerProxyEntry, newServiceEntry, h1, h2, h3, h4, hsuf'] at hok
        refine ⟨fun htrue => absurd htrue (by simp [hsuf']), fun _ => ?_⟩
        have hh := addParsedIPs_hostName ips _ e hok
        simpa using hh
    · by_cases h4 : port = 0
      · simp [registerProxyEntry, newServiceEntry, h1, h2, h3, hdom, h4] at hok
      by_cases hsuf : goHasSuffix (trimDot host) domain = true
      · simp [registerProxyEntry, newServiceEntry, h1, h2, h3, hdom, h4, hsuf] at hok
        refine ⟨fun _ => ?_, fun hfalse => absurd hfalse (by simp [hdom, hsuf])⟩
        rw [addParsedIPs_hostName ips _ e hok]
      · have hsuf' : goHasSuffix (trimDot host) domain = false := by
          revert hsuf
          cases goHasSuffix (trimDot host) domain <;> simp
        simp [registerProxyEntry, newServiceEntry, h1, h2, h3, hdom, h4, hsuf'] at hok
        refine ⟨fun htrue => absurd htrue (by simp [hdom, hsuf']), fun _ => ?_⟩
        have hh := addParsedIPs_hostName ips _ e hok
        simpa [hdom] using hh
  · intro inst service domain port text env h e hos hok
    simp only [registerEntry, newServiceEntry] at hok
    rw [hos] at hok
    by_cases h1 : inst = ""
    · rw [if_pos h1] at hok
      exact absurd hok (by simp)
    rw [if_neg h1] at hok
    by_cases h2 : (parseSubtypes service).1 = ""
    · rw [if_pos h2] at hok
      exact absurd hok (by simp)
    rw [if_neg h2] at hok
    by_cases hdom : domain = ""
    · rw [if_pos hdom] at hok
      rw [if_pos hdom]
      dsimp only at hok
      by_cases h4 : port = 0
      · rw [if_pos h4] at hok
        exact absurd hok (by simp)
      rw [if_neg h4] at hok
      rw [if_pos rfl] at hok
      dsimp only at hok
      by_cases hsuf : goHasSuffix (trimDot h) "local." = true
      · rw [if_neg (not_not_intro hsuf)] at hok
        dsimp only [List.nil_append] at hok
        by_cases haddr : ((env.ifaceAddrs.map Prod.fst).flatten = [] ∧
          (env.ifaceAddrs.map Prod.snd).flatten = [])
        · rw [if_pos haddr] at hok
          exact absurd hok (by simp)
        · rw [if_neg haddr] at hok
          cases Except.ok.inj hok
          exact ⟨fun _ => rfl, fun hfalse => absurd hfalse (by simp [hsuf])⟩
      · have hsuf' : goHasSuffix (trimDot h) "local." = false := by
          revert hsuf
          cases goHasSuffix (trimDot h) "local." <;> simp
        rw [if_pos (show ¬goHasSuffix (trimDot h) "local." = true by simp [hsuf'])] at hok
        dsimp only [List.nil_append] at hok
        by_cases haddr : ((env.ifaceAddrs.map Prod.fst).flatten = [] ∧
          (env.ifaceAddrs.map Prod.snd).flatten = [])
        · rw [if_pos haddr] at hok
          exact absurd hok (by simp)
        · rw [if_neg haddr] at hok
          cases Except.ok.inj hok
          exact ⟨fun htrue => absurd htrue (by simp [hsuf']), fun _ => rfl⟩
    · rw [if_neg hdom] at hok
      rw [if_neg hdom]
      dsimp only at hok
      by_cases h4 : port = 0
      · rw [if_pos h4] at hok
        exact absurd hok (by simp)
      rw [if_neg h4] at hok
      rw [if_pos rfl] at hok
      dsimp only at hok
      by_cases hsuf : goHasSuffix (trimDot h) domain = true
      · rw [if_neg (not_not_intro hsuf)] at hok
        dsimp only [List.nil_append] at hok
        by_cases haddr : ((env.ifaceAddrs.map Prod.fst).flatten = [] ∧
          (env.ifaceAddrs.map Prod.snd).flatten = [])
        · rw [if_pos haddr] at hok
          exact absurd hok (by simp)
        · rw [if_neg haddr] at hok
          cases Except.ok.inj hok
          exact ⟨fun _ => rfl, fun hfalse => absurd hfalse (by simp [hsuf])⟩
      · have hsuf' : goHasSuffix (trimDot h) domain = false := by
          revert hsuf
          cases goHasSuffix (trimDot h) domain <;> simp
        rw [if_pos (show ¬goHasSuffix (trimDot h) domain = true by simp [hsuf'])] at hok
        dsimp only [List.nil_append] at hok
        by_cases haddr : ((env.ifaceAddrs.map Prod.fst).flatten = [] ∧
          (env.ifaceAddrs.map Prod.snd).flatten = [])
        · rw [if_pos haddr] at hok
          exact absurd hok (by simp)
        · rw [if_neg haddr] at hok
          cases Except.ok.inj hok
          exact ⟨fun htrue => absurd htrue (by simp [hsuf']), fun _ => rfl⟩


/-- Claim C8, counterexample: a proxy host that already carries the domain
suffix but no trailing dot is kept verbatim, so the resulting host name
does not end in `".<domain>."`; and with `Register`'s dotted default
domain `"local."` the suffix test never matches a trimmed host, so a host
already carrying the domain gets it appended a second time. -/
theorem register_hostname_counterexample :
    (registerProxyEntry "inst" "_ipp._tcp" "local" 631 "myhost.local" [] []).map
        (fun e => e.HostName) = Except.ok "myhost.local" ∧
    goHasSuffix "myhost.local" ".local." = false ∧
    (registerEntry "inst" "_ipp._tcp" "" 631 []
        ⟨some "myhost.local.", [([5], [])]⟩).map (fun e => e.HostName) =
      Except.ok "myhost.local.local." :=
  ⟨rfl, rfl, rfl⟩

def regWitnessEntry : ServiceEntry :=
  { Instance := "inst", Service := "_svc._tcp", Subtypes := [], Domain := "local",
    HostName := "myhost.local.", Port := 631, Text := [] }

theorem register_hostname_suffix_witness :
    registerProxyEntry "inst" "_svc._tcp" "local" 631 "myhost" [] [] =
      Except.ok regWitnessEntry ∧
    goHasSuffix (trimDot "myhost") "local" = false ∧
    regWitnessEntry.HostName = trimDot "myhost" ++ "." ++ trimDot "local" ++ "." :=
  ⟨rfl, rfl,
    (register_hostname_suffix.1 "inst" "_svc._tcp" "local" "myhost" 631 [] []
      regWitnessEntry rfl).2 rfl⟩

def sampleBrowseParams : LookupParams := { Service := "_ipp._tcp" }

/-- A PTR record as the resolver receives it. -/
def ptrRecord (nm : String) (ttlv : Nat) (tgt : String) : RR :=
  { hdr := { name := nm, rrtype := typePTR, rrclass := classINET, ttl := ttlv },
    rdata := RData.ptr tgt }

def sampleBrowseMsg : Msg :=
  { answer := [ptrRecord "_ipp._tcp.local." 3200 "Printer._ipp._tcp.local."] }

/-- The fresh entry pass 1 creates for a PTR record: instance label cut
out of the PTR target, hostname and port still unset. -/
def freshPtrEntry (p : LookupParams) (tgt : String) : ServiceEntry :=
  newServiceEntry (trimDot (String.mk (goRemoveAll tgt.data p.ServiceName.data)))
    p.Service p.Domain

/-- Claim C7, counterexample: a datagram carrying a single matching PTR — no
SRV at all — still yields a delivery; the delivered entry has an empty
hostname and port 0. -/
theorem ptr_only_delivery_counterexample :
    (processMsg sampleBrowseParams 0 [] sampleBrowseMsg).1.map
      (fun e => (e.Instance, e.HostName, e.Port)) = [("Printer", "", 0)] := by
  rfl

/-- Claim C7 (amended): a matching PTR-only datagram with positive TTL produces
exactly one delivered entry — SRV observation is not required for
delivery — and that entry's hostname and port are still unset. -/
theorem ptr_only_entry_delivered (p : LookupParams) (now : Int) (tgt : String)
    (ttlv : Nat) (msg : Msg)
    (hInst : p.Instance = "")
    (hans : msg.answer = [ptrRecord p.ServiceName ttlv tgt])
    (hns : msg.ns = []) (hextra : msg.extra = [])
    (httl : 0 < ttlv) :
    (processMsg p now [] msg).1 =
      [ { freshPtrEntry p tgt with Expiry := now + ttlv, CacheFlush := false } ] ∧
    ∀ e ∈ (processMsg p now [] msg).1, e.HostName = "" ∧ e.Port = 0 := by
  have hsin : p.ServiceInstanceName = "" := by
    simp [LookupParams.ServiceInstanceName, serviceInstanceNameOf, hInst]
  have hlt : now < now + (ttlv : Int) := by omega
  have hne : ttlv ≠ 0 := by omega
  have hmain : (processMsg p now [] msg).1 =
      [ { freshPtrEntry p tgt with Expiry := now + ttlv, CacheFlush := false } ] := by
    simp [processMsg, hans, hns, hextra, pass1Step, pass2Step, deliveryLoop, ensureEntry,
      lookupEntry, updateEntry, setEntry, removeEntry, hsin, hlt, hne, ptrRecord,
      freshPtrEntry, newServiceEntry, classINET]
  refine ⟨hmain, ?_⟩
  intro e he
  rw [hmain] at he
  simp only [List.mem_cons, List.not_mem_nil, or_false] at he
  subst he
  exact ⟨rfl, rfl⟩

theorem ptr_only_entry_delivered_witness :
    sampleBrowseParams.Instance = "" ∧ (0 : Nat) < 3200 ∧
    (processMsg sampleBrowseParams 0 [] sampleBrowseMsg).1 =
      [ { freshPtrEntry sampleBrowseParams "Printer._ipp._tcp.local." with
            Expiry := (0 : Int) + (3200 : Nat), CacheFlush := false } ] :=
  ⟨rfl, by decide,
    (ptr_only_entry_delivered sampleBrowseParams 0 "Printer._ipp._tcp.local." 3200
      sampleBrowseMsg rfl rfl rfl rfl (by decide)).1⟩

end Zeroconf
